import Mathlib

/-!
Shallow embedding of the task-management core of the podcast_crawler
repository (src/src/crawler_refactor), together with proofs about the
claims of its specification.

Conventions of the embedding:
* `Instant` (Rust `std::time::Instant`) is modelled as a natural number of
  milliseconds; `Duration::from_secs(1)` is `1000`.
* `serde_json::Value` is modelled as a flat string-keyed object
  (`List (String × String)`), which covers every JSON value the scheduler
  core itself constructs (`json!({})` and `json!({"status": "success"})`);
  values produced by external parsers are opaque data of the same type.
* Ambient calls to `Instant::now()` become explicit `now` parameters.
* Shared mutable maps behind locks (`TaskWorkerMaps`) are modelled as
  functions `Nat → Option _` with explicit state passing; each Rust method
  that mutates a map becomes a function returning the updated map.
* Fallible external collaborators (the bus publish, the database insert,
  serde decoding) are parameters of the functions that invoke them.
-/

namespace Crawler

/-- Instants are milliseconds. -/
abbrev Instant := Nat

/-- Stage status, from `task.rs` (`enum StageStatus`). -/
inductive StageStatus where
  | Pending
  | InProgress
  | Completed
  | Failed
deriving DecidableEq, Repr

/-- Flat model of `serde_json::Value` objects. -/
abbrev Value := List (String × String)

/-- One processing stage, from `task.rs` (`struct Stage`). -/
structure Stage where
  name : String
  status : StageStatus
  start_time : Option Instant
  completed_time : Option Instant
  result_data : Option Value
  error_message : Option String
deriving DecidableEq, Repr

/-- A unit of ingestion work, from `task.rs` (`struct Task`). -/
structure Task where
  id : Nat
  target_thread_id : Nat
  payload : String
  content : List Nat
  retries : Nat
  max_retries : Nat
  backoff_timer : Option Instant
  stages : List Stage
  error_message : Option String
  shutdown : Bool
deriving DecidableEq, Repr

/-- Constructor `Task::new` from `task.rs`. -/
def Task.new (id : Nat) (payload : String) (max_retries : Nat) : Task where
  id := id
  target_thread_id := 0
  payload := payload
  content := []
  retries := 0
  max_retries := max_retries
  backoff_timer := none
  stages := []
  error_message := none
  shutdown := false

/-- Apply `f` to the last element of a list, if any; this is the effect of
Rust's `self.stages.last_mut()` followed by a mutation. -/
def modifyLast {α : Type} (f : α → α) : List α → List α
  | [] => []
  | [a] => [f a]
  | a :: b :: rest => a :: modifyLast f (b :: rest)

/-- Method `Task::add_stage` from `task.rs`: unconditionally push a new
`InProgress` stage (metrics side effects are dropped). -/
def Task.add_stage (t : Task) (name : String) (now : Instant) : Task :=
  { t with stages := t.stages ++
      [{ name := name
         status := StageStatus.InProgress
         start_time := some now
         completed_time := none
         result_data := none
         error_message := none }] }

/-- Method `Task::complete_stage` from `task.rs`: mutate the last stage, if
any, to `Completed` with the given result data. -/
def Task.complete_stage (t : Task) (result_data : Value) (now : Instant) : Task :=
  { t with stages := modifyLast (fun s =>
      { s with status := StageStatus.Completed
               result_data := some result_data
               completed_time := some now }) t.stages }

/-- Method `Task::fail_stage` from `task.rs`: mutate the last stage, if any,
to `Failed` with the given error message. -/
def Task.fail_stage (t : Task) (msg : String) (now : Instant) : Task :=
  { t with stages := modifyLast (fun s =>
      { s with status := StageStatus.Failed
               error_message := some msg
               completed_time := some now }) t.stages }

/-- Method `Task::pend_stage` from `task.rs`. -/
def Task.pend_stage (t : Task) : Task :=
  { t with stages := modifyLast (fun s =>
      { s with status := StageStatus.Pending }) t.stages }

/-- Method `Task::process_stage` from `task.rs`. -/
def Task.process_stage (t : Task) : Task :=
  { t with stages := modifyLast (fun s =>
      { s with status := StageStatus.InProgress }) t.stages }

/-- Method `Task::get_task_status` from `task.rs`. -/
def Task.get_task_status (t : Task) : StageStatus :=
  match t.stages.getLast? with
  | some s => s.status
  | none => StageStatus.Pending

/-- Method `Task::get_stage_result_data_by_name` from `task.rs`. -/
def Task.get_stage_result_data_by_name (t : Task) (stage_name : String) : Option Value :=
  match t.stages.find? (fun s => s.name == stage_name) with
  | some s => s.result_data
  | none => none

/-- Method `Task::is_failed` from `task.rs`. -/
def Task.is_failed (t : Task) : Bool :=
  t.get_task_status = StageStatus.Failed

/-- Method `Task::is_completed` from `task.rs`. -/
def Task.is_completed (t : Task) : Bool :=
  t.get_task_status = StageStatus.Completed

/-! ## The shared maps (`task_management_system.rs`, `TaskWorkerMaps`) -/

/-- The task registry `task_metadata : HashMap<u64, RwLock<Task>>`. -/
abbrev Registry := Nat → Option Task

/-- The worker-history map `worker_metadata : HashMap<usize, RwLock<VecDeque<String>>>`.
The front of the list is the front of the deque. -/
abbrev WorkerHist := Nat → Option (List String)

/-- Method `TaskWorkerMaps::insert_task`: `HashMap::insert`. -/
def insert_task (reg : Registry) (key : Nat) (value : Task) : Registry :=
  fun k => if k = key then some value else reg k

/-- Method `TaskWorkerMaps::update_task`: overwrite the entry only when the
key is already present. -/
def update_task (reg : Registry) (key : Nat) (value : Task) : Registry :=
  match reg key with
  | some _ => fun k => if k = key then some value else reg k
  | none => reg

/-- Method `TaskWorkerMaps::read_task`. -/
def read_task (reg : Registry) (key : Nat) : Option Task :=
  reg key

/-- Method `TaskWorkerMaps::insert_worker`: bind an empty history. -/
def insert_worker (m : WorkerHist) (key : Nat) : WorkerHist :=
  fun k => if k = key then some [] else m k

/-- Method `TaskWorkerMaps::read_worker`. -/
def read_worker (m : WorkerHist) (key : Nat) : Option (List String) :=
  m key

/-- The eviction loop of `TaskWorkerMaps::push_to_worker_with_capacity`:
`while vec.len() > capacity { vec.pop_front(); }`. -/
def evictFront (capacity : Nat) : List String → List String
  | [] => []
  | x :: xs => if xs.length + 1 > capacity then evictFront capacity xs else x :: xs

/-- The deque-level effect of `TaskWorkerMaps::push_to_worker_with_capacity`:
evict from the front while over capacity, then `push_back` the new value. -/
def pushWithCapacity (vec : List String) (value : String) (capacity : Nat) : List String :=
  evictFront capacity vec ++ [value]

/-- Method `TaskWorkerMaps::push_to_worker_with_capacity` on the map: a no-op
when the worker has no registered history. -/
def push_to_worker_with_capacity (m : WorkerHist) (key : Nat) (value : String)
    (capacity : Nat) : WorkerHist :=
  match m key with
  | some vec => fun k => if k = key then some (pushWithCapacity vec value capacity) else m k
  | none => m

/-! ## Worker (`worker.rs`) -/

/-- Outcome of `Worker::handle_fetch_error`: the mutated task, whether it was
handed to the TimerQueue, and the registry after the call.  The method itself
always returns an error to its caller. -/
structure FetchErrorResult where
  task : Task
  scheduled : Bool
  reg : Registry

/-- Method `Worker::handle_fetch_error` from `worker.rs`.  If
`retries < max_retries` it increments `retries`, sets
`backoff_timer = now + Duration::from_secs(1)` and schedules the task on the
TimerQueue; otherwise it records the error, fails the current stage and
writes the task back to the registry. -/
def Worker.handle_fetch_error (t : Task) (reg : Registry) (now : Instant)
    (error : String) : FetchErrorResult :=
  if t.retries < t.max_retries then
    { task := { t with retries := t.retries + 1, backoff_timer := some (now + 1000) }
      scheduled := true
      reg := reg }
  else
    let t1 := Task.fail_stage { t with error_message := some error } error now
    { task := t1
      scheduled := false
      reg := update_task reg t.id t1 }

/-- The mutation `Worker::handle_shutdown` applies to an in-flight task:
set `error_message` and fail the current stage with `"Shutdown signal"`. -/
def markShutdownFailed (t : Task) (now : Instant) : Task :=
  Task.fail_stage { t with error_message := some "Shutdown signal" } "Shutdown signal" now

/-- State touched by the worker's shutdown path: the shared registry, the
worker's pending dispatch-bus receive queue, and whether
`ShutdownCoordinator::worker_completed` has been called. -/
structure WorkerShutdownState where
  reg : Registry
  bus : List Task
  workerCompleted : Bool

/-- Method `Worker::handle_shutdown` from `worker.rs`.  After waiting for the
timer queue it marks every in-progress task Failed in the registry and
notifies the coordinator.  The dispatch-bus receiver is not read at all in
this method, which the model records by passing the pending bus queue
through unchanged. -/
def Worker.handle_shutdown (in_progress_tasks : List Nat) (now : Instant)
    (s : WorkerShutdownState) : WorkerShutdownState where
  reg := in_progress_tasks.foldl (fun r task_id =>
    match read_task r task_id with
    | some t => update_task r task_id (markShutdownFailed t now)
    | none => r) s.reg
  bus := s.bus
  workerCompleted := true

/-- Method `Worker::update_history` from `worker.rs`. -/
def Worker.update_history (m : WorkerHist) (worker_id : Nat) (url : String)
    (max_history_size : Nat) : WorkerHist :=
  push_to_worker_with_capacity m worker_id url max_history_size

/-- Method `Worker::calculate_similarity` from `worker.rs`, with `f64`
idealised as `ℚ`. -/
def Worker.calculate_similarity (m : WorkerHist) (worker_id : Nat) (url : String) : ℚ :=
  match read_worker m worker_id with
  | some handled_tasks =>
    if handled_tasks.isEmpty then 0
    else ((handled_tasks.filter (fun handled => handled == url)).length : ℚ)
      + 1 / (handled_tasks.length : ℚ)
  | none => 0

/-! ## Distributor (`distributor.rs`) -/

/-- The mutable fields of `Distributor`. -/
structure DistState where
  task_id_counter : Nat
  current_index : Nat
deriving DecidableEq, Repr

/-- Method `Distributor::select_worker` from `distributor.rs`: round-robin
over the worker vector.  `workers[self.current_index].id` is modelled by
`List.getD`; every use keeps `current_index` below the length. -/
def Distributor.select_worker (st : DistState) (workerIds : List Nat) :
    Nat × DistState :=
  (workerIds.getD st.current_index 0,
   { st with current_index := (st.current_index + 1) % workerIds.length })

/-- Result of `Distributor::create_task`: the returned value (`none` on
`Ok`), the distributor state and the registry after the call. -/
structure CreateTaskResult where
  err : Option String
  st : DistState
  reg : Registry

/-- Method `Distributor::create_task` from `distributor.rs`.  The broadcast
send is external; its outcome is the parameter `sendOk` with error text
`sendErr`. -/
def Distributor.create_task (st : DistState) (url : String) (workerIds : List Nat)
    (reg : Registry) (sendOk : Bool) (sendErr : String) (now : Instant) :
    CreateTaskResult :=
  let id := st.task_id_counter + 1
  let st1 : DistState := { st with task_id_counter := id }
  let t1 := (Task.new id url 0).add_stage "distribution" now
  let sel := Distributor.select_worker st1 workerIds
  let t2 := if t1.get_task_status = StageStatus.InProgress
            then t1.complete_stage [] now else t1
  let t3 := { t2 with target_thread_id := sel.1 }
  let reg1 := insert_task reg t3.id t3
  if sendOk then
    { err := none, st := sel.2, reg := reg1 }
  else
    let t4 := t3.fail_stage sendErr now
    { err := some sendErr, st := sel.2, reg := insert_task reg1 t4.id t4 }

/-- The worker ids created by `ThreadManager::new` in `thread_manager.rs`:
`Worker::new(i, ..)` for `i in 0..worker_count`, in order. -/
def ThreadManager.workerIds (worker_count : Nat) : List Nat :=
  List.range worker_count

/-- Successive calls of `Distributor::create_task` (all bus publishes
succeeding), returning the `target_thread_id` each created task has in the
registry afterwards, in submission order. -/
def submitTargets (st : DistState) (urls : List String) (workerIds : List Nat)
    (reg : Registry) (now : Instant) : List Nat :=
  match urls with
  | [] => []
  | u :: rest =>
    let r := Distributor.create_task st u workerIds reg true "" now
    (match read_task r.reg (st.task_id_counter + 1) with
     | some t => t.target_thread_id
     | none => 0) :: submitTargets r.st rest workerIds r.reg now

/-! ## Batch flush (`task_management_system.rs`, `create_process_batch_fn`) -/

/-- The per-task body of the loop in `create_process_batch_fn`.  External
collaborators are parameters: `decodeOk` is `serde_json::from_value::<ResultData>`
succeeding, `insertErr` is the error (if any) of
`podcast_repo.insert_with_episodes` for this task. -/
def process_batch_task (decodeOk : Value → Bool) (insertErr : Task → Option String)
    (now : Instant) (t : Task) : Task :=
  match t.get_stage_result_data_by_name "parsing" with
  | some result_data =>
    if decodeOk result_data then
      match insertErr t with
      | none =>
        if t.get_task_status = StageStatus.InProgress
        then t.complete_stage [("status", "success")] now else t
      | some e =>
        if t.get_task_status = StageStatus.InProgress
        then t.fail_stage ("Failed to insert podcast: " ++ e) now else t
    else
      if t.get_task_status = StageStatus.InProgress
      then t.fail_stage "Failed to decode podcast data" now else t
  | none => t.fail_stage "No result data available" now

/-- Result of one invocation of the closure built by
`create_process_batch_fn`: the registry (the closure captures only the
persistence state, so the registry is necessarily unchanged), the batch's
task values after the loop, and the closure's return value (always `Ok`). -/
structure BatchFlushResult where
  reg : Registry
  batch : List Task
  flushError : Option String

/-- The closure built by `create_process_batch_fn` in
`task_management_system.rs`, applied to one batch. -/
def create_process_batch_fn (decodeOk : Value → Bool) (insertErr : Task → Option String)
    (now : Instant) (reg : Registry) (batch : List Task) : BatchFlushResult where
  reg := reg
  batch := batch.map (process_batch_task decodeOk insertErr now)
  flushError := none

/-! ## TimerQueue heap (`task.rs` Ord impl, `timer_queue.rs`) -/

/-- Ordering on `Option Instant` as in Rust: `None < Some _`, `Some`
compares the payloads. -/
def optCmp : Option Nat → Option Nat → Ordering
  | none, none => Ordering.eq
  | none, some _ => Ordering.lt
  | some _, none => Ordering.gt
  | some a, some b => compare a b

/-- The `Ord` implementation on `Task` in `task.rs`:
`other.backoff_timer.cmp(&self.backoff_timer)` (reversed, to turn Rust's
max-heap `BinaryHeap` into a min-heap on `backoff_timer`). -/
def Task.heapCmp (self other : Task) : Ordering :=
  optCmp other.backoff_timer self.backoff_timer

/-- Method `TimerQueue::schedule_retry` from `timer_queue.rs`: default the
backoff timer to `now + 1 s` when unset, then push onto the heap (the heap
is modelled as the list of its elements). -/
def TimerQueue.schedule_retry (heap : List Task) (t : Task) (now : Instant) :
    List Task :=
  (if t.backoff_timer = none
   then { t with backoff_timer := some (now + 1000) } else t) :: heap

/-- One `BinaryHeap::pop` from a nonempty heap with greatest element search
done by scanning: returns a maximal element w.r.t. `Task.heapCmp` (the first
such, one admissible tie-break) and the remaining elements. -/
def extractMax : Task → List Task → Task × List Task
  | b, [] => (b, [])
  | b, y :: ys =>
    if Task.heapCmp y b = Ordering.gt then
      ((extractMax y ys).1, b :: (extractMax y ys).2)
    else
      ((extractMax b ys).1, y :: (extractMax b ys).2)

/-- Repeatedly pop the heap, with explicit fuel for termination. -/
def heapDrainAux : Nat → List Task → List Task
  | _, [] => []
  | 0, _ :: _ => []
  | fuel + 1, x :: xs =>
    let r := extractMax x xs
    r.1 :: heapDrainAux fuel r.2

/-- The order in which `TimerQueue::start_worker` pops tasks off the heap
(both in its ready-task loop and in the shutdown drain): repeated
`BinaryHeap::pop` under the reversed `Ord` of `task.rs`. -/
def TimerQueue.drainOrder (heap : List Task) : List Task :=
  heapDrainAux heap.length heap

end Crawler

namespace Crawler

/-! ## Basic lemmas about stage mutation -/

theorem modifyLast_length {α : Type} (f : α → α) (l : List α) :
    (modifyLast f l).length = l.length := by
  induction l with
  | nil => rfl
  | cons a rest ih =>
    cases rest with
    | nil => rfl
    | cons b r2 => simpa [modifyLast] using ih

theorem modifyLast_getLast? {α : Type} (f : α → α) (l : List α) :
    (modifyLast f l).getLast? = l.getLast?.map f := by
  induction l with
  | nil => rfl
  | cons a rest ih =>
    cases rest with
    | nil => rfl
    | cons b r2 =>
      have hne : modifyLast f (b :: r2) ≠ [] := by
        intro h
        have hl := modifyLast_length f (b :: r2)
        rw [h] at hl
        simp at hl
      obtain ⟨c, cs, hcc⟩ := List.exists_cons_of_ne_nil hne
      show (a :: modifyLast f (b :: r2)).getLast? = Option.map f (b :: r2).getLast?
      rw [hcc, List.getLast?_cons_cons, ← hcc, ih]

theorem getLast?_append_singleton {α : Type} (l : List α) (a : α) :
    (l ++ [a]).getLast? = some a := by
  simp [List.getLast?_append]

end Crawler

namespace Crawler

/-! ## Lemmas about the history deque -/

theorem evictFront_eq_drop (cap : Nat) (l : List String) :
    evictFront cap l = l.drop (l.length - cap) := by
  induction l with
  | nil => simp [evictFront]
  | cons x xs ih =>
    show (if xs.length + 1 > cap then evictFront cap xs else x :: xs) = _
    by_cases h : xs.length + 1 > cap
    · rw [if_pos h, ih]
      have hx : (x :: xs).length - cap = (xs.length - cap) + 1 := by
        simp only [List.length_cons]
        omega
      rw [hx]
      rfl
    · rw [if_neg h]
      have hx : (x :: xs).length - cap = 0 := by
        simp only [List.length_cons]
        omega
      rw [hx]
      rfl

/-! ## Concrete inputs used by counterexamples and witnesses -/

/-- The empty registry. -/
def emptyReg : Registry := fun _ => none

/-- A task mid-retry: one failed fetch already recorded. -/
def c1Task : Task := { Task.new 5 "http://feed" 3 with retries := 1 }

/-- First retry handling of `c1Task` at `now = 0`. -/
def c1First : FetchErrorResult := Worker.handle_fetch_error c1Task emptyReg 0 "boom"

/-- Second retry handling at `now = 500`. -/
def c1Second : FetchErrorResult := Worker.handle_fetch_error c1First.task emptyReg 500 "boom"

/-- A terminal stage used to probe `add_stage`/`fail_stage` on a finished task. -/
def c6Stage : Stage where
  name := "inserting"
  status := StageStatus.Completed
  start_time := some 0
  completed_time := some 1
  result_data := some [("status", "success")]
  error_message := none

/-- A task whose last stage is terminal (`Completed`). -/
def c6Task : Task := { Task.new 1 "http://feed" 0 with stages := [c6Stage] }

/-! ## C1 -/

/-- Claim C1, counterexample: the code sets the backoff deadline to a fixed
`now + 1 s`, not to `now + base_delay · 2^retries` (with optional jitter at
most 100 ms).  For the task `c1Task` (retries = 1, max_retries = 3) handled
at `now = 0` the code produces deadline 1000 ms, which no jitter `j ≤ 100`
can reconcile with `1000·2^1 + j` (reading `retries` before the increment)
nor with `1000·2^2 + j` (after the increment); and a second consecutive
retry handled 500 ms later gets deadline 1500, so the two deadlines differ
by 500 < base_backoff · 2^retries − jitter_bound for every reading. -/
theorem c1_backoff_counterexample :
    c1First.task.retries = 2 ∧
    c1First.task.backoff_timer = some 1000 ∧
    (∀ j ≤ 100, (1000 : Nat) ≠ 1000 * 2 ^ 1 + j) ∧
    (∀ j ≤ 100, (1000 : Nat) ≠ 1000 * 2 ^ 2 + j) ∧
    c1Second.task.backoff_timer = some 1500 ∧
    ¬ (1000 * 2 ^ 1 - 100 ≤ 1500 - 1000) := by
  refine ⟨rfl, rfl, by decide, by decide, rfl, by decide⟩

/-- Claim C1, amended: for every task whose fetch fails while
`retries < max_retries`, the worker increments `retries`, schedules the task
and sets the backoff deadline to the fixed value `now + 1 s` (no exponential
factor, no jitter); hence two consecutive retries of the same task get
deadlines whose difference equals the difference of the instants at which
the two failures were handled. -/
theorem c1_amended_fixed_backoff (t : Task) (reg : Registry) (now1 now2 : Instant)
    (e1 e2 : String) (h : t.retries < t.max_retries) (hle : now1 ≤ now2) :
    (Worker.handle_fetch_error t reg now1 e1).scheduled = true ∧
    (Worker.handle_fetch_error t reg now1 e1).task.retries = t.retries + 1 ∧
    (Worker.handle_fetch_error t reg now1 e1).task.backoff_timer = some (now1 + 1000) ∧
    ((Worker.handle_fetch_error t reg now1 e1).task.retries
        < (Worker.handle_fetch_error t reg now1 e1).task.max_retries →
      (Worker.handle_fetch_error (Worker.handle_fetch_error t reg now1 e1).task
          reg now2 e2).task.backoff_timer = some (now2 + 1000) ∧
      (now2 + 1000) - (now1 + 1000) = now2 - now1) := by
  refine ⟨?_, ?_, ?_, ?_⟩
  · simp [Worker.handle_fetch_error, h]
  · simp [Worker.handle_fetch_error, h]
  · simp [Worker.handle_fetch_error, h]
  · intro h2
    have h2a : t.retries + 1 < t.max_retries := by
      simpa [Worker.handle_fetch_error, h] using h2
    constructor
    · simp [Worker.handle_fetch_error, h, h2a]
    · exact Nat.add_sub_add_right now2 1000 now1

/-- Witness for the amended C1 at a concrete input. -/
theorem c1_amended_fixed_backoff_witness :
    c1Task.retries < c1Task.max_retries ∧ (0 : Instant) ≤ 500 ∧
    (Worker.handle_fetch_error c1Task emptyReg 0 "boom").task.backoff_timer
      = some (0 + 1000) :=
  ⟨by decide, by decide,
   (c1_amended_fixed_backoff c1Task emptyReg 0 500 "boom" "boom"
     (by decide) (by decide)).2.2.1⟩

/-! ## C4 -/

/-- Claim C4, counterexample: with `max_history_size = 3`, four pushes
starting from the empty history leave 4 entries — the history is not bounded
by `max_history_size`. -/
theorem c4_capacity_counterexample :
    (pushWithCapacity (pushWithCapacity (pushWithCapacity
        (pushWithCapacity [] "a" 3) "b" 3) "c" 3) "d" 3).length = 4 ∧
    ¬ (pushWithCapacity (pushWithCapacity (pushWithCapacity
        (pushWithCapacity [] "a" 3) "b" 3) "c" 3) "d" 3).length ≤ 3 := by
  refine ⟨by decide, by decide⟩

/-- Claim C4, amended: each push first evicts oldest entries from the front
until the length is at most `max_history_size` and then appends, therefore
the history (starting empty and only mutated by pushes) holds at most
`max_history_size + 1` entries, and eviction is exactly FIFO: the result of
a push is the suffix of the old history obtained by dropping
`len − capacity` oldest entries, followed by the new entry. -/
theorem c4_amended_history_bound (vec : List String) (value : String) (cap : Nat) :
    (pushWithCapacity vec value cap).length ≤ cap + 1 ∧
    pushWithCapacity vec value cap = vec.drop (vec.length - cap) ++ [value] := by
  constructor
  · simp only [pushWithCapacity, evictFront_eq_drop, List.length_append,
      List.length_drop, List.length_cons, List.length_nil]
    omega
  · simp [pushWithCapacity, evictFront_eq_drop]

/-! ## C6 -/

/-- Claim C6, counterexample: on the task `c6Task`, whose last (and only)
stage is terminal (`Completed`), both `add_stage` and `fail_stage` change
the stage log — neither is a silent no-op. -/
theorem c6_terminal_counterexample :
    c6Task.get_task_status = StageStatus.Completed ∧
    (c6Task.fail_stage "boom" 5).stages ≠ c6Task.stages ∧
    (c6Task.add_stage "extra" 5).stages ≠ c6Task.stages := by
  refine ⟨rfl, by decide, by decide⟩

/-- Claim C6, amended: on a task whose last stage is terminal, `add_stage`
still appends a fresh `InProgress` stage (the log grows by one) and
`fail_stage` still overwrites the last stage in place, setting its status to
`Failed` and its error message, while keeping its name. -/
theorem c6_amended_terminal_mutation (t : Task) (s : Stage) (nm msg : String)
    (now : Instant) (hlast : t.stages.getLast? = some s)
    (hterm : s.status = StageStatus.Completed ∨ s.status = StageStatus.Failed) :
    (t.add_stage nm now).stages.length = t.stages.length + 1 ∧
    ((t.add_stage nm now).stages.getLast?.map Stage.name) = some nm ∧
    ((t.add_stage nm now).stages.getLast?.map Stage.status) = some StageStatus.InProgress ∧
    ((t.fail_stage msg now).stages.getLast?.map Stage.status) = some StageStatus.Failed ∧
    ((t.fail_stage msg now).stages.getLast?.map Stage.error_message) = some (some msg) ∧
    ((t.fail_stage msg now).stages.getLast?.map Stage.name) = some s.name := by
  refine ⟨?_, ?_, ?_, ?_, ?_, ?_⟩ <;>
    simp [Task.add_stage, Task.fail_stage, modifyLast_getLast?,
      getLast?_append_singleton, hlast]

/-- Witness for the amended C6 at a concrete terminal task. -/
theorem c6_amended_terminal_mutation_witness :
    c6Task.stages.getLast? = some c6Stage ∧
    c6Stage.status = StageStatus.Completed ∧
    ((c6Task.fail_stage "boom" 5).stages.getLast?.map Stage.status)
      = some StageStatus.Failed :=
  ⟨rfl, rfl,
   (c6_amended_terminal_mutation c6Task c6Stage "extra" "boom" 5 rfl
     (Or.inl rfl)).2.2.2.1⟩

/-! ## C10 -/

/-- Claim C10: `calculate_similarity` is total; it returns 0 when the worker
has no registered history or an empty one, and otherwise returns the number
of history entries equal to the URL plus the reciprocal of the history
length (real arithmetic idealised as `ℚ`). -/
theorem c10_similarity_total (m : WorkerHist) (wid : Nat) (url : String) :
    (read_worker m wid = none → Worker.calculate_similarity m wid url = 0) ∧
    (read_worker m wid = some [] → Worker.calculate_similarity m wid url = 0) ∧
    (∀ h, read_worker m wid = some h → h ≠ [] →
      Worker.calculate_similarity m wid url =
        ((h.filter (fun x => x == url)).length : ℚ) + 1 / (h.length : ℚ)) := by
  refine ⟨?_, ?_, ?_⟩
  · intro h
    simp [Worker.calculate_similarity, h]
  · intro h
    simp [Worker.calculate_similarity, h]
  · intro l hl hne
    simp [Worker.calculate_similarity, hl, List.isEmpty_iff, hne]

/-- A concrete history map: worker 0 has processed "a", "b", "a". -/
def c10Hist : WorkerHist := fun k => if k = 0 then some ["a", "b", "a"] else none

/-- Witness for C10 at a concrete input. -/
theorem c10_similarity_total_witness :
    read_worker c10Hist 0 = some ["a", "b", "a"] ∧
    (["a", "b", "a"] : List String) ≠ [] ∧
    Worker.calculate_similarity c10Hist 0 "a" = 7 / 3 := by
  refine ⟨rfl, by decide, ?_⟩
  have h := (c10_similarity_total c10Hist 0 "a").2.2 ["a", "b", "a"] rfl (by decide)
  have hlen : (List.filter (fun x : String => x == "a") ["a", "b", "a"]).length = 2 := by
    decide
  rw [h, hlen]
  norm_num

/-! ## C3 -/

/-- One step of the in-progress failing loop in `Worker::handle_shutdown`. -/
def shutdownStep (now : Instant) (r : Registry) (task_id : Nat) : Registry :=
  match read_task r task_id with
  | some t => update_task r task_id (markShutdownFailed t now)
  | none => r

theorem handle_shutdown_reg_def (ips : List Nat) (now : Instant)
    (s : WorkerShutdownState) :
    (Worker.handle_shutdown ips now s).reg = ips.foldl (shutdownStep now) s.reg := by
  rfl

theorem shutdown_fold_spec (now : Instant) (ips : List Nat) (reg : Registry)
    (hnd : ips.Nodup) :
    (∀ tid ∈ ips, ∀ t, reg tid = some t →
      ips.foldl (shutdownStep now) reg tid = some (markShutdownFailed t now)) ∧
    (∀ tid, tid ∉ ips → ips.foldl (shutdownStep now) reg tid = reg tid) := by
  induction ips generalizing reg with
  | nil => exact ⟨fun tid h => absurd h (List.not_mem_nil tid), fun tid _ => rfl⟩
  | cons a rest ih =>
    have hna : a ∉ rest := (List.nodup_cons.mp hnd).1
    have hnr : rest.Nodup := (List.nodup_cons.mp hnd).2
    have hstep : ∀ tid, tid ≠ a → shutdownStep now reg a tid = reg tid := by
      intro tid hne
      unfold shutdownStep
      cases hra : read_task reg a with
      | none => rfl
      | some t =>
        simp only [update_task, read_task] at hra ⊢
        rw [hra]
        simp [hne]
    constructor
    · intro tid hmem t hreg
      rcases List.mem_cons.mp hmem with heq | hmem2
      · subst heq
        have hreg2 : shutdownStep now reg tid tid = some (markShutdownFailed t now) := by
          unfold shutdownStep
          simp only [read_task] at hreg ⊢
          rw [hreg]
          simp [update_task, read_task, hreg]
        calc (tid :: rest).foldl (shutdownStep now) reg tid
            = rest.foldl (shutdownStep now) (shutdownStep now reg tid) tid := rfl
          _ = shutdownStep now reg tid tid := (ih (shutdownStep now reg tid) hnr).2 tid hna
          _ = some (markShutdownFailed t now) := hreg2
      · have htne : tid ≠ a := fun hcc => hna (hcc ▸ hmem2)
        have hkeep : shutdownStep now reg a tid = some t := by
          rw [hstep tid htne]; exact hreg
        exact (ih (shutdownStep now reg a) hnr).1 tid hmem2 t hkeep
    · intro tid hnem
      have h1 : tid ∉ rest := fun hc => hnem (List.mem_cons_of_mem a hc)
      have h2 : tid ≠ a := fun hc => hnem (hc ▸ List.mem_cons_self a rest)
      calc (a :: rest).foldl (shutdownStep now) reg tid
          = rest.foldl (shutdownStep now) (shutdownStep now reg a) tid := rfl
        _ = shutdownStep now reg a tid := (ih (shutdownStep now reg a) hnr).2 tid h1
        _ = reg tid := hstep tid h2

/-- The task drained out of the TimerQueue during shutdown in the C3
counterexample: `shutdown == true`, targeted at worker 0, still in progress. -/
def c3DrainedTask : Task :=
  { Task.new 9 "http://feed" 0 with
      shutdown := true
      target_thread_id := 0
      stages := [{ name := "fetching", status := StageStatus.InProgress,
                   start_time := some 0, completed_time := none,
                   result_data := none, error_message := none }] }

/-- Worker 0 shutdown state for the C3 counterexample: the drained task sits
unread on the dispatch bus and is registered in the registry. -/
def c3State : WorkerShutdownState where
  reg := insert_task emptyReg 9 c3DrainedTask
  bus := [c3DrainedTask]
  workerCompleted := false

/-- Claim C3, counterexample: `Worker::handle_shutdown` does not receive from
the dispatch bus at all.  With a `shutdown == true` task targeted at this
worker pending on the bus, the shutdown path leaves the bus untouched and
the task unfailed in the registry, and still notifies the coordinator. -/
theorem c3_shutdown_counterexample :
    c3DrainedTask.shutdown = true ∧
    c3DrainedTask.target_thread_id = 0 ∧
    (Worker.handle_shutdown [] 3 c3State).bus = [c3DrainedTask] ∧
    read_task (Worker.handle_shutdown [] 3 c3State).reg 9 = some c3DrainedTask ∧
    c3DrainedTask.is_failed = false ∧
    (Worker.handle_shutdown [] 3 c3State).workerCompleted = true := by
  exact ⟨rfl, rfl, rfl, rfl, by decide, rfl⟩

/-- Claim C3, amended: after the cancellation signal, the worker waits for
the timer-queue drain, marks each of its in-flight tasks Failed in the
registry with message "Shutdown signal", and notifies the
ShutdownCoordinator that it has completed; it performs no further receive
from the dispatch bus, so tasks with `shutdown == true` targeted at it are
left untouched (both on the bus and in the registry, for registry entries
not among the in-flight ids). -/
theorem c3_amended_shutdown_path (s : WorkerShutdownState) (ips : List Nat)
    (now : Instant) (hnd : ips.Nodup) :
    (Worker.handle_shutdown ips now s).bus = s.bus ∧
    (Worker.handle_shutdown ips now s).workerCompleted = true ∧
    (∀ tid ∈ ips, ∀ t, read_task s.reg tid = some t →
      read_task (Worker.handle_shutdown ips now s).reg tid
        = some (markShutdownFailed t now)) ∧
    (∀ tid, tid ∉ ips →
      read_task (Worker.handle_shutdown ips now s).reg tid = read_task s.reg tid) := by
  refine ⟨rfl, rfl, ?_, ?_⟩
  · intro tid hmem t hreg
    rw [read_task, handle_shutdown_reg_def]
    exact (shutdown_fold_spec now ips s.reg hnd).1 tid hmem t hreg
  · intro tid hnem
    rw [read_task, handle_shutdown_reg_def, read_task]
    exact (shutdown_fold_spec now ips s.reg hnd).2 tid hnem

/-- Witness for the amended C3 at a concrete input: one in-flight task. -/
theorem c3_amended_shutdown_path_witness :
    ([9] : List Nat).Nodup ∧
    read_task c3State.reg 9 = some c3DrainedTask ∧
    read_task (Worker.handle_shutdown [9] 3 c3State).reg 9
      = some (markShutdownFailed c3DrainedTask 3) :=
  ⟨by decide, rfl,
   (c3_amended_shutdown_path c3State [9] 3 (by decide)).2.2.1 9
     (List.mem_singleton.mpr rfl) c3DrainedTask rfl⟩

/-! ## C2 -/

/-- The parsing stage of the C2 failing input (result data attached). -/
def c2ParsingStage : Stage where
  name := "parsing"
  status := StageStatus.Completed
  start_time := some 0
  completed_time := some 1
  result_data := some [("podcast", "p")]
  error_message := none

/-- The `inserting` stage as the worker leaves it before submitting to the
BatchInserter: `InProgress`. -/
def c2InsertingStage : Stage where
  name := "inserting"
  status := StageStatus.InProgress
  start_time := some 2
  completed_time := none
  result_data := none
  error_message := none

/-- The C2 failing input task: parsed, submitted to the batch inserter,
`inserting` stage in progress. -/
def c2Task : Task :=
  { Task.new 1 "http://feed" 0 with stages := [c2ParsingStage, c2InsertingStage] }

/-- The registry as the worker left it: the snapshot with `inserting`
`InProgress`. -/
def c2Reg : Registry := insert_task emptyReg 1 c2Task

/-- One successful flush of the batch `[c2Task]` (decoding succeeds and the
database insert succeeds). -/
def c2Flush : BatchFlushResult :=
  create_process_batch_fn (fun _ => true) (fun _ => none) 7 c2Reg [c2Task]

/-- Claim C2, code bug: on a successful flush the loop body does complete the
task's `inserting` stage with `{"status": "success"}` — but only on the
batch's local clone, which it then drops.  The closure never writes the
completed snapshot back to the registry, so a subsequent registry read of
task 1 still returns the snapshot whose final stage is `inserting`
`InProgress`, not `Completed` as the claim (and the spec's registry
contract) requires. -/
theorem c2_registry_not_updated :
    c2Flush.batch.map Task.get_task_status = [StageStatus.Completed] ∧
    c2Flush.batch.map (fun t => t.get_stage_result_data_by_name "inserting")
      = [some [("status", "success")]] ∧
    c2Flush.flushError = none ∧
    read_task c2Flush.reg 1 = some c2Task ∧
    c2Task.get_task_status = StageStatus.InProgress := by
  refine ⟨by decide, by decide, rfl, rfl, rfl⟩

/-! ## C5 -/

/-- Claim C5: `Distributor::create_task` returns an error exactly when the
bus publish fails; on failure the distribution stage is failed and the
updated snapshot re-inserted, and on success the registry holds the task
with its distribution stage Completed (and the round-robin target set). -/
theorem c5_create_task_error_iff (st : DistState) (url : String)
    (workerIds : List Nat) (reg : Registry) (sendOk : Bool) (sendErr : String)
    (now : Instant) :
    ((Distributor.create_task st url workerIds reg sendOk sendErr now).err = none
       ↔ sendOk = true) ∧
    (sendOk = false →
      ((read_task (Distributor.create_task st url workerIds reg sendOk sendErr now).reg
          (st.task_id_counter + 1)).map (fun t => t.stages.map Stage.name)
        = some ["distribution"]) ∧
      ((read_task (Distributor.create_task st url workerIds reg sendOk sendErr now).reg
          (st.task_id_counter + 1)).map Task.get_task_status
        = some StageStatus.Failed) ∧
      ((read_task (Distributor.create_task st url workerIds reg sendOk sendErr now).reg
          (st.task_id_counter + 1)).map (fun t => t.stages.map Stage.error_message)
        = some [some sendErr])) ∧
    (sendOk = true →
      ((read_task (Distributor.create_task st url workerIds reg sendOk sendErr now).reg
          (st.task_id_counter + 1)).map (fun t => t.stages.map Stage.name)
        = some ["distribution"]) ∧
      ((read_task (Distributor.create_task st url workerIds reg sendOk sendErr now).reg
          (st.task_id_counter + 1)).map Task.get_task_status
        = some StageStatus.Completed) ∧
      ((read_task (Distributor.create_task st url workerIds reg sendOk sendErr now).reg
          (st.task_id_counter + 1)).map Task.target_thread_id
        = some (workerIds.getD st.current_index 0))) := by
  cases sendOk with
  | false =>
    refine ⟨by simp [Distributor.create_task], fun _ => ?_,
      fun hc => absurd hc (by simp)⟩
    refine ⟨?_, ?_, ?_⟩ <;>
      simp [Distributor.create_task, Distributor.select_worker, Task.new,
        Task.add_stage, Task.complete_stage, Task.fail_stage, Task.get_task_status,
        modifyLast, insert_task, read_task]
  | true =>
    refine ⟨by simp [Distributor.create_task], fun hc => absurd hc (by simp),
      fun _ => ?_⟩
    refine ⟨?_, ?_, ?_⟩ <;>
      simp [Distributor.create_task, Distributor.select_worker, Task.new,
        Task.add_stage, Task.complete_stage, Task.fail_stage, Task.get_task_status,
        modifyLast, insert_task, read_task]

/-- Witness for C5 at a concrete input (successful publish). -/
theorem c5_create_task_error_iff_witness :
    (Distributor.create_task { task_id_counter := 0, current_index := 0 } "http://feed"
        [0, 1] emptyReg true "closed" 4).err = none ∧
    ((read_task (Distributor.create_task { task_id_counter := 0, current_index := 0 }
        "http://feed" [0, 1] emptyReg true "closed" 4).reg 1).map
        Task.get_task_status = some StageStatus.Completed) :=
  ⟨((c5_create_task_error_iff { task_id_counter := 0, current_index := 0 } "http://feed"
      [0, 1] emptyReg true "closed" 4).1).mpr rfl,
   ((c5_create_task_error_iff { task_id_counter := 0, current_index := 0 } "http://feed"
      [0, 1] emptyReg true "closed" 4).2.2 rfl).2.1⟩

/-! ## C7 -/

/-- Every mutation the core applies to an existing `Task`, collected from
`task.rs` (stage transitions), `distributor.rs` (`target_thread_id`),
`worker.rs` (`content` via the fetcher, `error_message`,
`handle_fetch_error`) and `timer_queue.rs` (`shutdown` flag during drain,
defaulting of the backoff timer in `schedule_retry`). -/
inductive TaskStep : Task → Task → Prop where
  | add_stage (t : Task) (name : String) (now : Instant) :
      TaskStep t (t.add_stage name now)
  | complete_stage (t : Task) (rd : Value) (now : Instant) :
      TaskStep t (t.complete_stage rd now)
  | fail_stage (t : Task) (msg : String) (now : Instant) :
      TaskStep t (t.fail_stage msg now)
  | pend_stage (t : Task) : TaskStep t t.pend_stage
  | process_stage (t : Task) : TaskStep t t.process_stage
  | set_content (t : Task) (bytes : List Nat) :
      TaskStep t { t with content := bytes }
  | set_error_message (t : Task) (msg : String) :
      TaskStep t { t with error_message := some msg }
  | set_target (t : Task) (wid : Nat) :
      TaskStep t { t with target_thread_id := wid }
  | mark_shutdown (t : Task) : TaskStep t { t with shutdown := true }
  | default_backoff (t : Task) (now : Instant) :
      TaskStep t { t with backoff_timer := some (now + 1000) }
  | fetch_error (t : Task) (reg : Registry) (now : Instant) (e : String) :
      TaskStep t (Worker.handle_fetch_error t reg now e).task

theorem handle_fetch_error_retries_le (t : Task) (reg : Registry) (now : Instant)
    (e : String) (h : t.retries ≤ t.max_retries) :
    (Worker.handle_fetch_error t reg now e).task.retries
      ≤ (Worker.handle_fetch_error t reg now e).task.max_retries := by
  by_cases hr : t.retries < t.max_retries
  · simp [Worker.handle_fetch_error, hr]
    omega
  · simpa [Worker.handle_fetch_error, hr, Task.fail_stage] using h

/-- Claim C7: every task reachable from `Task::new` by the core's mutations
satisfies `retries ≤ max_retries` — `retries` starts at 0 and is incremented
only by the retry branch of `handle_fetch_error`, which is guarded by
`retries < max_retries`. -/
theorem c7_retries_le_max (id : Nat) (url : String) (mr : Nat) (t : Task)
    (h : Relation.ReflTransGen TaskStep (Task.new id url mr) t) :
    t.retries ≤ t.max_retries := by
  induction h with
  | refl => simp [Task.new]
  | tail hsteps hstep ih =>
    cases hstep with
    | add_stage name now => simpa [Task.add_stage] using ih
    | complete_stage rd now => simpa [Task.complete_stage] using ih
    | fail_stage msg now => simpa [Task.fail_stage] using ih
    | pend_stage => simpa [Task.pend_stage] using ih
    | process_stage => simpa [Task.process_stage] using ih
    | set_content bytes => simpa using ih
    | set_error_message msg => simpa using ih
    | set_target wid => simpa using ih
    | mark_shutdown => simpa using ih
    | default_backoff now => simpa using ih
    | fetch_error reg now e => exact handle_fetch_error_retries_le _ reg now e ih

/-- Witness for C7: a freshly created task (empty step sequence). -/
theorem c7_retries_le_max_witness :
    (Task.new 1 "http://feed" 3).retries ≤ (Task.new 1 "http://feed" 3).max_retries :=
  c7_retries_le_max 1 "http://feed" 3 (Task.new 1 "http://feed" 3)
    Relation.ReflTransGen.refl

/-! ## C8 -/

theorem range_getD (n i : Nat) (h : i < n) : (List.range n).getD i 0 = i := by
  rw [List.getD_eq_getElem _ _ (by simpa using h)]
  simp

theorem submitTargets_spec (urls : List String) (n : Nat) :
    ∀ (c i : Nat) (reg : Registry) (now : Instant), i < n →
      submitTargets ⟨c, i⟩ urls (List.range n) reg now
        = (List.range urls.length).map (fun k => (i + k) % n) := by
  induction urls with
  | nil =>
    intro c i reg now _
    simp [submitTargets]
  | cons u rest ih =>
    intro c i reg now h
    have hn : 0 < n := Nat.lt_of_le_of_lt (Nat.zero_le i) h
    have hhead :
        (match read_task (Distributor.create_task ⟨c, i⟩ u (List.range n) reg
            true "" now).reg (c + 1) with
         | some t => t.target_thread_id
         | none => 0) = i := by
      simp [Distributor.create_task, Distributor.select_worker, read_task,
        insert_task, Task.new, Task.add_stage, Task.complete_stage,
        Task.get_task_status, modifyLast, List.getElem?_range h]
    have hst : (Distributor.create_task ⟨c, i⟩ u (List.range n) reg true "" now).st
        = ⟨c + 1, (i + 1) % n⟩ := by
      simp [Distributor.create_task, Distributor.select_worker]
    show (match read_task (Distributor.create_task ⟨c, i⟩ u (List.range n) reg
            true "" now).reg (c + 1) with
          | some t => t.target_thread_id
          | none => 0)
        :: submitTargets (Distributor.create_task ⟨c, i⟩ u (List.range n) reg
            true "" now).st rest (List.range n)
            (Distributor.create_task ⟨c, i⟩ u (List.range n) reg true "" now).reg now
        = (List.range (rest.length + 1)).map (fun k => (i + k) % n)
    rw [hhead, hst, ih (c + 1) ((i + 1) % n) _ now (Nat.mod_lt _ hn)]
    rw [List.range_succ_eq_map, List.map_cons, List.map_map]
    have hfun : (fun k => ((i + 1) % n + k) % n)
        = fun k => (i + Nat.succ k) % n := by
      funext k
      rw [Nat.mod_add_mod]
      congr 1
      omega
    rw [hfun]
    simp [Nat.mod_eq_of_lt h, Function.comp_def]

/-- Claim C8: with workers created by `ThreadManager::new` with ids
`0..worker_count` in order and all publishes succeeding, the k-th submitted
URL (zero-based) is assigned `target_worker_id = k mod worker_count` by the
round-robin `select_worker`. -/
theorem c8_round_robin (urls : List String) (n k : Nat) (reg : Registry)
    (now : Instant) (hn : 0 < n) (hk : k < urls.length) :
    (submitTargets ⟨0, 0⟩ urls (ThreadManager.workerIds n) reg now).getD k 0
      = k % n := by
  rw [ThreadManager.workerIds, submitTargets_spec urls n 0 0 reg now hn]
  rw [List.getD_eq_getElem _ _ (by simpa using hk)]
  simp

/-- Witness for C8 at a concrete input: third of three URLs, two workers. -/
theorem c8_round_robin_witness :
    (0 : Nat) < 2 ∧ (2 : Nat) < (["a", "b", "c"] : List String).length ∧
    (submitTargets ⟨0, 0⟩ ["a", "b", "c"] (ThreadManager.workerIds 2) emptyReg 0).getD 2 0
      = 2 % 2 :=
  ⟨by decide, by decide,
   c8_round_robin ["a", "b", "c"] 2 2 emptyReg 0 (by decide) (by decide)⟩

/-! ## C9 -/

/-- Order embedding of Rust `Option<Instant>` ordering into `Nat`:
`None` below every `Some`. -/
def optKey : Option Nat → Nat
  | none => 0
  | some n => n + 1

theorem heapCmp_gt_iff (y b : Task) :
    Task.heapCmp y b = Ordering.gt
      ↔ optKey y.backoff_timer < optKey b.backoff_timer := by
  cases hy : y.backoff_timer <;> cases hb : b.backoff_timer <;>
    simp [Task.heapCmp, optCmp, optKey, hy, hb, Nat.compare_eq_gt,
      Nat.succ_lt_succ_iff]

theorem extractMax_length (b : Task) (l : List Task) :
    (extractMax b l).2.length = l.length := by
  induction l generalizing b with
  | nil => rfl
  | cons y ys ih =>
    simp only [extractMax]
    split <;> simp [ih]

theorem extractMax_perm (b : Task) (l : List Task) :
    List.Perm ((extractMax b l).1 :: (extractMax b l).2) (b :: l) := by
  induction l generalizing b with
  | nil => exact List.Perm.refl _
  | cons y ys ih =>
    by_cases hgt : Task.heapCmp y b = Ordering.gt
    · simp only [extractMax, if_pos hgt]
      exact (List.Perm.swap b (extractMax y ys).1 (extractMax y ys).2).trans
        ((ih y).cons b)
    · simp only [extractMax, if_neg hgt]
      exact (List.Perm.swap y (extractMax b ys).1 (extractMax b ys).2).trans
        (((ih b).cons y).trans (List.Perm.swap b y ys))

theorem extractMax_min (b : Task) (l : List Task) :
    optKey (extractMax b l).1.backoff_timer ≤ optKey b.backoff_timer ∧
    ∀ y ∈ l, optKey (extractMax b l).1.backoff_timer ≤ optKey y.backoff_timer := by
  induction l generalizing b with
  | nil => exact ⟨le_refl _, by simp⟩
  | cons y ys ih =>
    by_cases hgt : Task.heapCmp y b = Ordering.gt
    · have hlt := (heapCmp_gt_iff y b).mp hgt
      obtain ⟨h1, h2⟩ := ih y
      simp only [extractMax, if_pos hgt]
      refine ⟨le_trans h1 (le_of_lt hlt), ?_⟩
      intro z hz
      rcases List.mem_cons.mp hz with hzy | hzys
      · exact hzy ▸ h1
      · exact h2 z hzys
    · have hby : optKey b.backoff_timer ≤ optKey y.backoff_timer := by
        have := mt (heapCmp_gt_iff y b).mpr hgt
        omega
      obtain ⟨h1, h2⟩ := ih b
      simp only [extractMax, if_neg hgt]
      refine ⟨h1, ?_⟩
      intro z hz
      rcases List.mem_cons.mp hz with hzy | hzys
      · exact hzy ▸ le_trans h1 hby
      · exact h2 z hzys

theorem heapDrain_spec (fuel : Nat) :
    ∀ l : List Task, l.length ≤ fuel →
      List.Perm (heapDrainAux fuel l) l ∧
      List.Pairwise
        (fun a b => optKey a.backoff_timer ≤ optKey b.backoff_timer)
        (heapDrainAux fuel l) := by
  induction fuel with
  | zero =>
    intro l hl
    have hnil : l = [] := List.eq_nil_of_length_eq_zero (Nat.le_zero.mp hl)
    subst hnil
    exact ⟨List.Perm.refl _, List.Pairwise.nil⟩
  | succ fuel ih =>
    intro l hl
    cases l with
    | nil => exact ⟨List.Perm.refl _, List.Pairwise.nil⟩
    | cons x xs =>
      have hlen : (extractMax x xs).2.length ≤ fuel := by
        rw [extractMax_length]
        simpa using hl
      obtain ⟨hperm, hsorted⟩ := ih (extractMax x xs).2 hlen
      constructor
      · exact (hperm.cons (extractMax x xs).1).trans (extractMax_perm x xs)
      · refine List.Pairwise.cons ?_ hsorted
        intro b hb
        have hb2 : b ∈ (extractMax x xs).2 := hperm.mem_iff.mp hb
        have hb3 : b ∈ x :: xs :=
          (extractMax_perm x xs).mem_iff.mp (List.mem_cons_of_mem _ hb2)
        rcases List.mem_cons.mp hb3 with hbx | hbxs
        · exact hbx ▸ (extractMax_min x xs).1
        · exact (extractMax_min x xs).2 b hbxs

/-- Claim C9: under the reversed `Ord` of `task.rs`, repeatedly popping the
(max-)heap yields the tasks of the heap as a permutation, in nondecreasing
order of their backoff deadlines whenever those are set — i.e. the heap
behaves as a min-heap keyed by `backoff_until`. -/
theorem c9_heap_pop_order (heap : List Task)
    (hset : ∀ t ∈ heap, t.backoff_timer.isSome) :
    List.Perm (TimerQueue.drainOrder heap) heap ∧
    List.Pairwise
      (fun a b => ∀ da db, a.backoff_timer = some da →
        b.backoff_timer = some db → da ≤ db)
      (TimerQueue.drainOrder heap) := by
  obtain ⟨hperm, hsorted⟩ :=
    heapDrain_spec heap.length heap (le_refl heap.length)
  refine ⟨hperm, hsorted.imp ?_⟩
  intro a b hab da db hda hdb
  rw [hda, hdb] at hab
  exact Nat.le_of_succ_le_succ hab

/-- A concrete heap for the C9 witness: three scheduled tasks. -/
def c9Heap : List Task :=
  [{ Task.new 1 "a" 0 with backoff_timer := some 3000 },
   { Task.new 2 "b" 0 with backoff_timer := some 1000 },
   { Task.new 3 "c" 0 with backoff_timer := some 2000 }]

/-- Witness for C9 at a concrete heap. -/
theorem c9_heap_pop_order_witness :
    (∀ t ∈ c9Heap, t.backoff_timer.isSome) ∧
    (List.Perm (TimerQueue.drainOrder c9Heap) c9Heap ∧
      List.Pairwise
        (fun a b => ∀ da db, a.backoff_timer = some da →
          b.backoff_timer = some db → da ≤ db)
        (TimerQueue.drainOrder c9Heap)) :=
  ⟨by decide, c9_heap_pop_order c9Heap (by decide)⟩

end Crawler

